import Mathlib

/-!
# Verification of the timu_web job orchestration core (`src/app.py`)

Shallow embedding of the job store, progress extractor and job supervisor of
`app.py`, together with theorems settling the frozen claims about them.

Modelling conventions:
* JSON documents written to / read from the per-job files (`info.json`,
  `progress.json`, `quiz_data.json`) are modelled by the `JVal` AST; the
  application only ever stores strings, naturals, null, arrays and objects.
* Python `dict` objects are association lists (`List (String × JVal)`);
  assignment `d[k] = v` keeps the position of an existing key and appends a
  new key at the end, exactly as CPython dicts do (`setKey`).
* File writes (`Path.write_text`) are fallible; the supervisor model threads a
  `WriteOracle` saying which write attempts succeed, and a failing write
  raises the modelled Python exception, leaving the file unchanged.
* `int(current * 100 / total)` on non-negative ints is modelled by `Nat`
  floor division (Python computes a float division and truncates; the two
  agree for every magnitude the double mantissa represents exactly).
-/

set_option maxHeartbeats 1000000

/-- JSON values as stored in the job records (`info.json`, `progress.json`,
`quiz_data.json`).  The application writes only strings, naturals, null,
arrays and objects. -/
inductive JVal where
  | jstr (s : String)
  | jnum (n : Nat)
  | jnull
  | jarr (elts : List JVal)
  | jobj (fields : List (String × JVal))
  deriving Repr

/-- A Python `dict` holding a job record, as an ordered association list. -/
abbrev InfoMap := List (String × JVal)

/-- Python `d[k] = v`: replace the value of an existing key in place
(keeping its position), else append the new key at the end. -/
def setKey : InfoMap → String → JVal → InfoMap
  | [], key, v => [(key, v)]
  | (k, w) :: rest, key, v =>
    if k = key then (k, v) :: rest else (k, w) :: setKey rest key v

/-- Python `d.get(k)` / `k in d`: first-occurrence lookup. -/
def lookupKey : InfoMap → String → Option JVal
  | [], _ => none
  | (k, v) :: rest, key => if k = key then some v else lookupKey rest key

/-- Python `s[-n:]`: the last `n` characters of a string (the whole string
when it is shorter than `n`). -/
def lastN (n : Nat) (s : String) : String :=
  ⟨s.toList.drop (s.toList.length - n)⟩

/-- The progress record written by `save_progress` (`app.py` lines 47-56):
`{'stage': .., 'current': .., 'total': .., 'message': ..,
  'percent': int(current * 100 / total) if total > 0 else 0}`. -/
structure ProgressRec where
  stage : String
  current : Nat
  total : Nat
  message : String
  percent : Nat
  deriving Repr, DecidableEq

/-- The pure content computation of `save_progress(stage, current, total,
message)` (`app.py` lines 47-54).  The percent field is computed afresh from
the arguments; no previous record is consulted.  Python's
`int(current * 100 / total)` (float division truncated toward zero) is
modelled by `Nat` floor division, with which it agrees on non-negative
operands of double-exact magnitude. -/
def mkProgress (stage : String) (current total : Nat) (message : String) :
    ProgressRec :=
  { stage := stage
    current := current
    total := total
    message := message
    percent := if total > 0 then current * 100 / total else 0 }

/-- `progress.json` content as a JSON object, in the key order
`save_progress` writes. -/
def progressJson (p : ProgressRec) : JVal :=
  .jobj [("stage", .jstr p.stage), ("current", .jnum p.current),
         ("total", .jnum p.total), ("message", .jstr p.message),
         ("percent", .jnum p.percent)]

/-- The pure content computation of `save_info(status, error)` (`app.py`
lines 34-45): load the existing record if the file exists, else start a fresh
`{'id': task_id, 'url': url, 'created_at': ..}`; then `info['status'] =
status`, and `info['error'] = error` only when `error` is non-empty. -/
def saveInfoData (cur : Option InfoMap) (taskId url createdAt : String)
    (status error : String) : InfoMap :=
  let base := cur.getD
    [("id", .jstr taskId), ("url", .jstr url), ("created_at", .jstr createdAt)]
  let withStatus := setKey base "status" (.jstr status)
  if error ≠ "" then setKey withStatus "error" (.jstr error) else withStatus

/-- Python `\s` on the characters the build step emits (modelled at ASCII
granularity, as `Char.isWhitespace`: space, tab, CR, LF). -/
def isSpaceChar (c : Char) : Bool := c.isWhitespace

/-- Python `\d` (modelled as the ASCII decimal digits). -/
def isDigitChar (c : Char) : Bool := c.isDigit

/-- Numeric value of a digit run, as Python `int()` of the matched group. -/
def natOfDigits (ds : List Char) : Nat :=
  ds.foldl (fun a c => 10 * a + (c.toNat - '0'.toNat)) 0

/-- Attempt of the regex tail `\s+(\d+)/(\d+)` at a fixed position, with
maximal munch (backtracking cannot produce any other outcome for this
pattern since no whitespace character is a digit and no digit is `/`).
When `wordBoundary` is set, additionally require a word boundary after the
second number — the reading of the spec's "match on word-boundaries around
the numbers"; the regexes in `app.py` lines 90 and 99 do NOT require this
(they correspond to `wordBoundary = false`). -/
def matchNumsTail (wordBoundary : Bool) (cs : List Char) :
    Option (Nat × Nat) :=
  let (ws, r1) := cs.span isSpaceChar
  if ws.isEmpty then none else
  let (ds, r2) := r1.span isDigitChar
  if ds.isEmpty then none else
  match r2 with
  | '/' :: r3 =>
    let (ts, r4) := r3.span isDigitChar
    if ts.isEmpty then none
    else if wordBoundary then
      match r4 with
      | [] => some (natOfDigits ds, natOfDigits ts)
      | c :: _ =>
        if c.isAlphanum || c = '_' then none
        else some (natOfDigits ds, natOfDigits ts)
    else some (natOfDigits ds, natOfDigits ts)
  | _ => none

/-- One attempt of `re.search(marker + r'\s+(\d+)/(\d+)', ..)` at a fixed
start position: the literal marker followed by the numeric tail. -/
def tryMatchAt (marker : List Char) (cs : List Char) : Option (Nat × Nat) :=
  if marker.isPrefixOf cs then matchNumsTail false (cs.drop marker.length)
  else none

/-- `re.search(marker + r'\s+(\d+)/(\d+)', line)`: try each start position
from the left, returning the first full match — the engine's leftmost-match
rule. -/
def reSearchNums (marker : List Char) : List Char → Option (Nat × Nat)
  | [] => none
  | c :: rest =>
    match tryMatchAt marker (c :: rest) with
    | some r => some r
    | none => reSearchNums marker rest

/-- Python `needle in line` (substring test). -/
def containsSub (needle : List Char) : List Char → Bool
  | [] => needle.isEmpty
  | c :: rest => needle.isPrefixOf (c :: rest) || containsSub needle rest

/-- A structured progress update extracted from one stdout line. -/
structure ProgressUpdate where
  stage : String
  current : Nat
  total : Nat
  message : String
  deriving Repr, DecidableEq

/-- The per-line progress extraction of `run_task` (`app.py` lines 88-109):
first the question-processing regex `题目处理\s+(\d+)/(\d+)`, then the
knowledge-point regex `知识点处理\s+(\d+)/(\d+)`, then the new-stage test
`'开始处理' in line and '知识点' in line`; any other line produces no
update. -/
def extractProgress (line : String) : Option ProgressUpdate :=
  let cs := line.toList
  match reSearchNums "题目处理".toList cs with
  | some (d, t) =>
    some ⟨"生成题目解析", d, t, s!"AI 解析题目中... {d}/{t}"⟩
  | none =>
    match reSearchNums "知识点处理".toList cs with
    | some (d, t) =>
      some ⟨"生成知识点总结", d, t, s!"AI 总结知识点中... {d}/{t}"⟩
    | none =>
      if containsSub "开始处理".toList cs && containsSub "知识点".toList cs then
        some ⟨"分析知识点", 0, 1, "正在分析知识点..."⟩
      else none

/-- Modelled from the claim's words for C5: one attempt of "the marker
followed by `<done>/<total>`" at a fixed position, with the word-boundary
requirement controlled by `wb`. -/
def claimTryAt (wb : Bool) (marker : List Char) (cs : List Char) :
    Option (Nat × Nat) :=
  if marker.isPrefixOf cs then matchNumsTail wb (cs.drop marker.length)
  else none

/-- Modelled from the claim's words for C5: "a line containing the marker
followed by `<done>/<total>`" — the first position in the line at which the
marker-and-numbers pattern matches (with `wb = true` also demanding a word
boundary after the second number, the claim's "word boundaries around the
numbers"). -/
def searchNumsIdx (wb : Bool) (marker : List Char) (cs : List Char) :
    Option (Nat × Nat) :=
  (List.range cs.length).findSome? (fun i => claimTryAt wb marker (cs.drop i))

/-- Modelled from the claim's words for C5: the claimed per-line extraction
behaviour, with the word-boundary requirement controlled by `wb`.  With
`wb = false` this is the claim amended to drop the word-boundary clause. -/
def claimExtract (wb : Bool) (line : String) : Option ProgressUpdate :=
  let cs := line.toList
  match searchNumsIdx wb "题目处理".toList cs with
  | some (d, t) =>
    some ⟨"生成题目解析", d, t, s!"AI 解析题目中... {d}/{t}"⟩
  | none =>
    match searchNumsIdx wb "知识点处理".toList cs with
    | some (d, t) =>
      some ⟨"生成知识点总结", d, t, s!"AI 总结知识点中... {d}/{t}"⟩
    | none =>
      if containsSub "开始处理".toList cs && containsSub "知识点".toList cs then
        some ⟨"分析知识点", 0, 1, "正在分析知识点..."⟩
      else none

/-- How the external build process behaves after launch: either its stdout
stream ends and `wait(timeout=1800)` returns an exit code together with the
full standard-error text, or `wait` raises `subprocess.TimeoutExpired`, or
reading the output raises an I/O error after the given lines. -/
inductive WaitOutcome where
  | exited (code : Int) (stderr : String)
  | timeout
  | readErr (msg : String)
  deriving Repr

/-- A run of the external build step, as observed by `run_task`:
`subprocess.Popen` either raises at once or yields a finite stdout line
stream followed by a `WaitOutcome`. -/
inductive ProcBehavior where
  | startError (msg : String)
  | run (lines : List String) (outcome : WaitOutcome)
  deriving Repr

/-- The four terminal steps of the supervisor (`app.py`): the `returncode == 0`
branch (113-115), the nonzero branch (116-118), the `TimeoutExpired` handler
(120-122), and the `Exception` backstop (123-125).  An entry is recorded when
the branch starts executing. -/
inductive TermStep where
  | completedStep
  | failedExitStep
  | failedTimeoutStep
  | failedErrorStep
  deriving Repr, DecidableEq

/-- Which write attempts (`Path.write_text` calls, numbered in program
order) succeed.  A failing write raises the modelled Python exception and
leaves the file unchanged. -/
abbrev WriteOracle := Nat → Bool

/-- The modelled Python exceptions `run_task` distinguishes:
`subprocess.TimeoutExpired` versus everything caught by `except Exception`. -/
inductive PyExc where
  | timeoutExpired
  | otherExc (msg : String)
  deriving Repr

/-- State of one job's files plus the observation record: contents of
`info.json` and `progress.json`, the index of the next write attempt, the
statuses successfully written so far, and the terminal branches entered. -/
structure RunState where
  info : Option InfoMap
  progress : Option ProgressRec
  nextWrite : Nat
  statusWrites : List String
  termSteps : List TermStep
  deriving Repr

/-- `save_info(status, error)` (`app.py` 34-45) as an effect: on a successful
write the record of `saveInfoData` replaces `info.json`; a failed write
raises. -/
def doSaveInfo (oc : WriteOracle) (taskId url createdAt status error : String)
    (s : RunState) : Except (PyExc × RunState) RunState :=
  if oc s.nextWrite then
    .ok { s with
          info := some (saveInfoData s.info taskId url createdAt status error)
          nextWrite := s.nextWrite + 1
          statusWrites := s.statusWrites ++ [status] }
  else
    .error (.otherExc "store write failed",
            { s with nextWrite := s.nextWrite + 1 })

/-- `save_progress(stage, current, total, message)` (`app.py` 47-56) as an
effect. -/
def doSaveProgress (oc : WriteOracle) (stage : String) (cur tot : Nat)
    (msg : String) (s : RunState) : Except (PyExc × RunState) RunState :=
  if oc s.nextWrite then
    .ok { s with
          progress := some (mkProgress stage cur tot msg)
          nextWrite := s.nextWrite + 1 }
  else
    .error (.otherExc "store write failed",
            { s with nextWrite := s.nextWrite + 1 })

/-- The `for line in process.stdout` loop of `run_task` (`app.py` 88-109):
each recognized line updates `progress.json`, unrecognized lines are
skipped. -/
def processLines (oc : WriteOracle) :
    List String → RunState → Except (PyExc × RunState) RunState
  | [], s => .ok s
  | l :: ls, s =>
    match extractProgress l with
    | some u =>
      match doSaveProgress oc u.stage u.current u.total u.message s with
      | .ok s' => processLines oc ls s'
      | .error e => .error e
    | none => processLines oc ls s

/-- Record that a terminal branch started executing. -/
def addStep (t : TermStep) (s : RunState) : RunState :=
  { s with termSteps := s.termSteps ++ [t] }

/-- The `try` block of `run_task` (`app.py` 74-118): launch, stream lines,
wait, then the exit-code branches.  `process.stderr.read()[-500:]` is
`lastN 500`. -/
def tryBody (oc : WriteOracle) (taskId url createdAt : String)
    (b : ProcBehavior) (s : RunState) : Except (PyExc × RunState) RunState :=
  match b with
  | .startError msg => .error (.otherExc msg, s)
  | .run lines outcome =>
    match processLines oc lines s with
    | .error e => .error e
    | .ok s1 =>
      match outcome with
      | .readErr msg => .error (.otherExc msg, s1)
      | .timeout => .error (.timeoutExpired, s1)
      | .exited code stderr =>
        if code = 0 then
          match doSaveInfo oc taskId url createdAt "completed" ""
              (addStep .completedStep s1) with
          | .error e => .error e
          | .ok s3 => doSaveProgress oc "完成" 1 1 "生成完成！" s3
        else
          match doSaveInfo oc taskId url createdAt "failed" (lastN 500 stderr)
              (addStep .failedExitStep s1) with
          | .error e => .error e
          | .ok s3 => doSaveProgress oc "失败" 0 1 "生成失败" s3

/-- Result of one `run_task` run: the final state, and whether an exception
escaped the function (killing the daemon thread silently). -/
structure RunResult where
  final : RunState
  escaped : Bool
  deriving Repr

/-- An exception handler body of `run_task` (120-122 or 123-125):
`save_info('failed', errMsg); save_progress('失败', 0, 1, progMsg)`.  An
exception inside the handler itself propagates out of `run_task`. -/
def handlerSeq (oc : WriteOracle) (taskId url createdAt : String)
    (errMsg progMsg : String) (s : RunState) : RunResult :=
  match doSaveInfo oc taskId url createdAt "failed" errMsg s with
  | .error (_, s') => ⟨s', true⟩
  | .ok s1 =>
    match doSaveProgress oc "失败" 0 1 progMsg s1 with
    | .error (_, s') => ⟨s', true⟩
    | .ok s2 => ⟨s2, false⟩

/-- `run_task` (`app.py` 22-125): the initial `building` status and
`初始化` progress (58-59, outside the `try`), the `try` body, and the two
`except` clauses.  `initInfo` is the content of `info.json` written by the
submit endpoint before the thread started (`None` if the file is absent). -/
def runTask (oc : WriteOracle) (taskId url createdAt : String)
    (b : ProcBehavior) (initInfo : Option InfoMap) : RunResult :=
  let s0 : RunState := ⟨initInfo, none, 0, [], []⟩
  match doSaveInfo oc taskId url createdAt "building" "" s0 with
  | .error (_, s) => ⟨s, true⟩
  | .ok s1 =>
    match doSaveProgress oc "初始化" 0 100 "正在启动..." s1 with
    | .error (_, s) => ⟨s, true⟩
    | .ok s2 =>
      match tryBody oc taskId url createdAt b s2 with
      | .ok s3 => ⟨s3, false⟩
      | .error (.timeoutExpired, s3) =>
        handlerSeq oc taskId url createdAt "处理超时（30分钟）" "处理超时"
          (addStep .failedTimeoutStep s3)
      | .error (.otherExc msg, s3) =>
        handlerSeq oc taskId url createdAt msg msg
          (addStep .failedErrorStep s3)

/-- Field of the final `info.json` after a run. -/
def infoField (r : RunResult) (k : String) : Option JVal :=
  match r.final.info with
  | some m => lookupKey m k
  | none => none

/-- The all-writes-succeed oracle. -/
def allWrites : WriteOracle := fun _ => true

/-- The oracle whose `k`-th write attempt fails. -/
def failAt (k : Nat) : WriteOracle := fun n => n != k

/-- File-system operations at the granularity the atomicity claim is about.
CPython's `Path.write_text` opens the target with mode `'w'` — truncating it
in place — writes the new content and closes it; an atomic replace would
instead write a temporary file and `rename` it over the target. -/
inductive FsOp where
  | openTrunc (path : String)
  | writeAll (path : String) (content : JVal)
  | closeFile (path : String)
  | rename (src dst : String)
  deriving Repr

/-- The operation sequence of `Path.write_text(path, content)`: open-truncate
the target itself, write, close. -/
def writeTextOps (path : String) (content : JVal) : List FsOp :=
  [.openTrunc path, .writeAll path content, .closeFile path]

/-- Path of a job's `info.json` (relative to `DATA_DIR`). -/
def infoPathOf (taskId : String) : String := taskId ++ "/info.json"

/-- Path of a job's `progress.json` (relative to `DATA_DIR`). -/
def progressPathOf (taskId : String) : String := taskId ++ "/progress.json"

/-- The file operations `save_info` performs (`app.py` 44-45):
`info_file.write_text(json.dumps(info, ...))`. -/
def saveInfoOps (taskId : String) (cur : Option InfoMap)
    (url createdAt status error : String) : List FsOp :=
  writeTextOps (infoPathOf taskId)
    (.jobj (saveInfoData cur taskId url createdAt status error))

/-- The file operations `save_progress` performs (`app.py` 55-56):
`(task_dir / 'progress.json').write_text(json.dumps(progress, ...))`. -/
def saveProgressOps (taskId stage : String) (cur tot : Nat) (msg : String) :
    List FsOp :=
  writeTextOps (progressPathOf taskId) (progressJson (mkProgress stage cur tot msg))

/-- Is the operation an open-with-truncation of the given target file? -/
def isTruncOf (target : String) : FsOp → Bool
  | .openTrunc p => p == target
  | _ => false

/-- Is the operation a rename of some file onto the given target? -/
def isRenameInto (target : String) : FsOp → Bool
  | .rename _ dst => dst == target
  | _ => false

/-- Modelled from the spec's words for C2: "writing each record to a
temporary location and renaming into place (or equivalent
platform-appropriate atomic replace), never by partial in-place writes" —
the operation sequence renames something onto the target and never
open-truncates the target itself. -/
def specAtomicReplaceWrite (target : String) (ops : List FsOp) : Bool :=
  ops.any (isRenameInto target) && !(ops.any (isTruncOf target))

/-- What a concurrent reader can see of one record file: missing, complete
(parsed) content, or a torn state in the middle of an in-place write (in
particular the empty file that exists between the truncating open and the
write, which no JSON parser accepts). -/
inductive FileView (α : Type) where
  | absent
  | torn
  | complete (a : α)
  deriving Repr

/-- Effect of one file operation on the reader-visible state of the target
record file: the truncating open makes it torn, the completed write makes it
complete. -/
def stepInfoView (target : String) (v : FileView InfoMap) :
    FsOp → FileView InfoMap
  | .openTrunc p => if p = target then .torn else v
  | .writeAll p c =>
    if p = target then
      match c with
      | .jobj m => .complete m
      | _ => v
    else v
  | _ => v

/-- The reader-visible states of the target file before, during and after an
operation sequence. -/
def infoViewTrace (target : String) (v : FileView InfoMap) :
    List FsOp → List (FileView InfoMap)
  | [] => [v]
  | op :: rest => v :: infoViewTrace target (stepInfoView target v op) rest

/-- Result of `get_task` when no exception escapes: the 404 branch or the
merged response record. -/
inductive GetResult where
  | notFound
  | found (m : InfoMap)
  deriving Repr

/-- The title extraction of `get_task` (`app.py` 277-278):
`quiz_data.get('meta', {}).get('paper_name', '')` evaluated on the parsed
`quiz_data.json`.  `none` models the `AttributeError` raised (and swallowed
by the bare `except`) when the top level or the `meta` value is not a
dict. -/
def extractPaperName (q : JVal) : Option JVal :=
  match q with
  | .jobj fields =>
    match lookupKey fields "meta" with
    | none => some (.jstr "")
    | some (.jobj metaFields) =>
      some ((lookupKey metaFields "paper_name").getD (.jstr ""))
    | some _ => none
  | _ => none

/-- The tail of `get_task` (`app.py` 272-289): the guarded quiz-title
override followed by the file listing. -/
def finishResp (m : InfoMap) (quiz : FileView JVal) (files : List String) :
    InfoMap :=
  let m2 :=
    match quiz with
    | .complete q =>
      match extractPaperName q with
      | some v => setKey m "title" v
      | none => m
    | _ => m
  setKey m2 "files" (.jarr (files.map .jstr))

/-- `get_task` (`app.py` 258-289) over the reader-visible states of the
job's three files.  A torn `info.json` or `progress.json` raises an
unhandled `json.loads` error; a torn or malformed `quiz_data.json` is
swallowed by the `try/except` around the title override. -/
def getTask (info : FileView InfoMap) (progress : FileView ProgressRec)
    (quiz : FileView JVal) (files : List String) : Except String GetResult :=
  match info with
  | .absent => .ok .notFound
  | .torn => .error "JSONDecodeError"
  | .complete m =>
    match progress with
    | .torn => .error "JSONDecodeError"
    | .absent => .ok (.found (finishResp m quiz files))
    | .complete p =>
      .ok (.found (finishResp (setKey m "progress" (progressJson p)) quiz files))

/-- `list_tasks` (`app.py` 292-301) over the reader-visible states of the
per-job `info.json` files (directories without `info.json` are skipped); a
torn record raises an unhandled `json.loads` error. -/
def listTasks : List (FileView InfoMap) → Except String (List InfoMap)
  | [] => .ok []
  | .absent :: rest => listTasks rest
  | .torn :: _ => .error "JSONDecodeError"
  | .complete m :: rest =>
    match listTasks rest with
    | .ok ms => .ok (m :: ms)
    | .error e => .error e

/-- Did the endpoint return a response rather than raise? -/
def exceptOk {ε α : Type} : Except ε α → Bool
  | .ok _ => true
  | .error _ => false

/-- Timed view of one build run for the timeout claim: when the stdout
stream reaches end-of-file, when the process exits, and with what. -/
structure TimedBuild where
  stdoutEofTime : Nat
  exitTime : Nat
  exitCode : Int
  stderr : String
  deriving Repr

/-- Terminal outcome of the timed run: recorded status, recorded error, and
the time at which the terminal records are written. -/
structure TimedResult where
  status : String
  error : Option String
  finishTime : Nat
  deriving Repr, DecidableEq

/-- Timing of `run_task` (`app.py` 88-122): the `for line in process.stdout`
loop blocks until stdout reaches EOF — no timeout applies there — and only
then is `process.wait(timeout=1800)` called, so `TimeoutExpired` fires only
when the process is still alive 1800 seconds after stdout EOF. -/
def runTaskTimed (b : TimedBuild) : TimedResult :=
  if b.exitTime ≤ b.stdoutEofTime + 1800 then
    { status := if b.exitCode = 0 then "completed" else "failed"
      error :=
        if b.exitCode = 0 then none
        else if lastN 500 b.stderr ≠ "" then some (lastN 500 b.stderr)
        else none
      finishTime := max b.stdoutEofTime b.exitTime }
  else
    { status := "failed", error := some "处理超时（30分钟）",
      finishTime := b.stdoutEofTime + 1800 }

/-- Task-identifier assignment of `generate` and `demo` (`app.py` 165, 306):
`task_id = str(uuid.uuid4())[:8]` — the first eight characters of the
36-character UUID string. -/
def taskIdOfUuid (u : String) : String := ⟨u.toList.take 8⟩

/-- Writing the initial `info.json` of a fresh submission into the store
(`app.py` 166-167 and 243-244: `task_dir.mkdir(exist_ok=True)` never fails
on an existing directory, and the write replaces any record already stored
under that identifier). -/
def createInitial (store : String → Option InfoMap) (id : String)
    (info : InfoMap) : String → Option InfoMap :=
  fun k => if k = id then some info else store k

/-- The store with no jobs. -/
def emptyStore : String → Option InfoMap := fun _ => none

/-- The percent-formula invariant on an optional progress record. -/
def percentOk (po : Option ProgressRec) : Prop :=
  ∀ p, po = some p →
    p.percent = if 0 < p.total then p.current * 100 / p.total else 0

/-- The state carried by a `run_task` step result, whether or not it raised. -/
def stateOf : Except (PyExc × RunState) RunState → RunState
  | .ok s => s
  | .error (_, s) => s

/-- A job record as the submit endpoints write it (fixture). -/
def mInit : InfoMap :=
  [("id", .jstr "t1"), ("url", .jstr "u"), ("created_at", .jstr "ts"),
   ("status", .jstr "building")]

/-- A completed job record with a stored title (fixture). -/
def mStored : InfoMap :=
  [("id", .jstr "t1"), ("url", .jstr "u"), ("title", .jstr "旧标题"),
   ("status", .jstr "completed")]

theorem lookupKey_setKey_self (m : InfoMap) (k : String) (v : JVal) :
    lookupKey (setKey m k v) k = some v := by
  induction m with
  | nil => simp [setKey, lookupKey]
  | cons hd tl ih =>
    obtain ⟨k', w⟩ := hd
    by_cases h : k' = k <;> simp [setKey, lookupKey, h, ih]

theorem lookupKey_setKey_ne (m : InfoMap) (k k' : String) (v : JVal)
    (h : k' ≠ k) : lookupKey (setKey m k v) k' = lookupKey m k' := by
  induction m with
  | nil => simp [setKey, lookupKey, Ne.symm h]
  | cons hd tl ih =>
    obtain ⟨k₀, w⟩ := hd
    by_cases h0 : k₀ = k
    · subst h0
      have hne : ¬k₀ = k' := fun hh => h hh.symm
      simp [setKey, lookupKey, hne]
    · by_cases h1 : k₀ = k'
      · simp [setKey, lookupKey, h0, h1, h]
      · simp [setKey, lookupKey, h0, h1, ih]

example : lastN 3 "abcdef" = "def" := by decide

example : lastN 500 "ab" = "ab" := rfl

example : lastN 500 "" = "" := rfl

example :
    extractProgress "[######------] 题目处理 5/10" =
      some ⟨"生成题目解析", 5, 10, "AI 解析题目中... 5/10"⟩ := by decide

example :
    extractProgress "知识点处理 2/7" =
      some ⟨"生成知识点总结", 2, 7, "AI 总结知识点中... 2/7"⟩ := by decide

example : extractProgress "开始处理 知识点 …" =
    some ⟨"分析知识点", 0, 1, "正在分析知识点..."⟩ := by decide

example : extractProgress "plain output" = none := by decide

example : extractProgress "题目处理 1/3x" =
    some ⟨"生成题目解析", 1, 3, "AI 解析题目中... 1/3"⟩ := by decide

theorem findSome?_comp_map {α β γ : Type} (g : α → β) (f : β → Option γ) :
    ∀ l : List α, (l.map g).findSome? f = l.findSome? (fun a => f (g a))
  | [] => by simp
  | a :: l => by
    simp only [List.map_cons, List.findSome?_cons]
    cases f (g a) <;> simp [findSome?_comp_map g f l]

/-- The engine-style left-to-right scan of `reSearchNums` computes exactly
the first-matching-position description used by the claim-side extractor
(without word boundaries). -/
theorem reSearchNums_eq_searchNumsIdx (marker : List Char) :
    ∀ cs, reSearchNums marker cs = searchNumsIdx false marker cs
  | [] => by simp [reSearchNums, searchNumsIdx]
  | c :: rest => by
    have hrange := List.range_succ_eq_map rest.length
    simp only [reSearchNums, searchNumsIdx, List.length_cons, hrange,
      List.findSome?_cons, findSome?_comp_map]
    have h0 : claimTryAt false marker ((c :: rest).drop 0) =
        tryMatchAt marker (c :: rest) := rfl
    rw [h0]
    cases htry : tryMatchAt marker (c :: rest) with
    | some r => rfl
    | none =>
      have : (fun i => claimTryAt false marker ((c :: rest).drop (i + 1))) =
          (fun i => claimTryAt false marker (rest.drop i)) := by
        funext i
        simp [List.drop_succ_cons]
      rw [this, reSearchNums_eq_searchNumsIdx marker rest]
      rfl

example : claimExtract true "题目处理 1/3x" = none := by decide

example : claimExtract true "题目处理 1/3" =
    some ⟨"生成题目解析", 1, 3, "AI 解析题目中... 1/3"⟩ := by decide

example :
    (runTask (failAt 3) "t1" "u" "ts" (.run [] (.exited 0 "")) none).final.statusWrites
      = ["building", "completed", "failed"] := by decide

example :
    (runTask (failAt 3) "t1" "u" "ts" (.run [] (.exited 0 "")) none).final.termSteps
      = [.completedStep, .failedErrorStep] := by decide

example :
    (runTask allWrites "t1" "u" "ts" (.run ["题目处理 2/5"] (.exited 0 "x")) none).final.statusWrites
      = ["building", "completed"] := by decide

theorem saveInfoData_status (cur : Option InfoMap)
    (taskId url createdAt st er : String) :
    lookupKey (saveInfoData cur taskId url createdAt st er) "status" =
      some (.jstr st) := by
  unfold saveInfoData
  by_cases h : er = ""
  · simp [h, lookupKey_setKey_self]
  · simp only [h, ne_eq, not_false_iff, if_pos, if_true]
    rw [lookupKey_setKey_ne _ _ _ _ (by decide : ("status" : String) ≠ "error")]
    exact lookupKey_setKey_self _ _ _

theorem saveInfoData_error (cur : Option InfoMap)
    (taskId url createdAt st er : String) :
    lookupKey (saveInfoData cur taskId url createdAt st er) "error" =
      if er = "" then
        lookupKey (cur.getD [("id", .jstr taskId), ("url", .jstr url),
          ("created_at", .jstr createdAt)]) "error"
      else some (.jstr er) := by
  unfold saveInfoData
  by_cases h : er = ""
  · simp only [h, ne_eq, not_true, if_neg, ite_true, if_false]
    exact lookupKey_setKey_ne _ _ _ _ (by decide : ("error" : String) ≠ "status")
  · simp [h, lookupKey_setKey_self]

theorem saveInfoData_other (cur : Option InfoMap)
    (taskId url createdAt st er k : String)
    (h1 : k ≠ "status") (h2 : k ≠ "error") :
    lookupKey (saveInfoData cur taskId url createdAt st er) k =
      lookupKey (cur.getD [("id", .jstr taskId), ("url", .jstr url),
        ("created_at", .jstr createdAt)]) k := by
  unfold saveInfoData
  by_cases h : er = ""
  · simp only [h, ne_eq, not_true, if_neg, ite_true, if_false]
    exact lookupKey_setKey_ne _ _ _ _ h1
  · simp only [h, ne_eq, not_false_iff, if_pos, if_true]
    rw [lookupKey_setKey_ne _ _ _ _ h2]
    exact lookupKey_setKey_ne _ _ _ _ h1

/-- C2, counterexample: the claim "every write of a Job Record or Progress
Record is performed by writing to a temporary location and atomically
renaming into place" is false at the very first record write a job performs:
`save_info('building')` (and likewise `save_progress`) is a single in-place
truncate-and-write of the target file, with no temporary file and no
rename. -/
theorem c2_counterexample :
    specAtomicReplaceWrite (infoPathOf "t1")
        (saveInfoOps "t1" none "u" "ts" "building" "") = false
    ∧ saveInfoOps "t1" none "u" "ts" "building" "" =
        [.openTrunc (infoPathOf "t1"),
         .writeAll (infoPathOf "t1")
           (.jobj (saveInfoData none "t1" "u" "ts" "building" "")),
         .closeFile (infoPathOf "t1")]
    ∧ specAtomicReplaceWrite (progressPathOf "t1")
        (saveProgressOps "t1" "初始化" 0 100 "正在启动...") = false := by
  exact ⟨rfl, rfl, rfl⟩

/-- C2, amended: every write of a Job Record or Progress Record is an
in-place `Path.write_text` — open the target with truncation, write the new
content, close — with no temporary file and no rename, so the
atomic-replace discipline the claim describes is not used and a concurrent
reader may observe an incomplete record. -/
theorem c2_amended (taskId : String) (cur : Option InfoMap)
    (url createdAt status error stage msg : String) (curN totN : Nat) :
    saveInfoOps taskId cur url createdAt status error =
      writeTextOps (infoPathOf taskId)
        (.jobj (saveInfoData cur taskId url createdAt status error))
    ∧ saveProgressOps taskId stage curN totN msg =
      writeTextOps (progressPathOf taskId)
        (progressJson (mkProgress stage curN totN msg))
    ∧ (saveInfoOps taskId cur url createdAt status error).any
        (isRenameInto (infoPathOf taskId)) = false
    ∧ (saveProgressOps taskId stage curN totN msg).any
        (isRenameInto (progressPathOf taskId)) = false
    ∧ (saveInfoOps taskId cur url createdAt status error).any
        (isTruncOf (infoPathOf taskId)) = true
    ∧ (saveProgressOps taskId stage curN totN msg).any
        (isTruncOf (progressPathOf taskId)) = true
    ∧ specAtomicReplaceWrite (infoPathOf taskId)
        (saveInfoOps taskId cur url createdAt status error) = false
    ∧ specAtomicReplaceWrite (progressPathOf taskId)
        (saveProgressOps taskId stage curN totN msg) = false := by
  refine ⟨rfl, rfl, ?_, ?_, ?_, ?_, ?_, ?_⟩ <;>
    simp [saveInfoOps, saveProgressOps, writeTextOps, isRenameInto, isTruncOf,
      specAtomicReplaceWrite]

/-- C3: the claim is right and the code is wrong.  The 1800-second timeout
is applied only inside `process.wait(timeout=1800)`, which runs after the
`for line in process.stdout` loop has already blocked — without any timeout
— until stdout reaches end-of-file.  A build process that keeps its stdout
open for 5000 seconds and then exits 0 is recorded `completed` at t = 5000:
no timeout failure, no `处理超时（30分钟）` error, and the terminal state
arrives far outside the claimed 1800 s + bounded overhead. -/
theorem c3_timeout_not_enforced :
    runTaskTimed ⟨5000, 5000, 0, ""⟩ =
      { status := "completed", error := none, finishTime := 5000 }
    ∧ (runTaskTimed ⟨5000, 5000, 0, ""⟩).status ≠ "failed"
    ∧ 1800 < (runTaskTimed ⟨5000, 5000, 0, ""⟩).finishTime := by
  exact ⟨rfl, by decide, by decide⟩

/-- C5, counterexample: the regexes of `run_task` do not require word
boundaries around the numbers.  The line `"题目处理 1/3x"` has no word
boundary after the total (`3` is immediately followed by the word character
`x`), so under the claim it is "every other line" and must yield no update —
but the code emits the update `(生成题目解析, 1, 3)` for it. -/
theorem c5_counterexample :
    extractProgress "题目处理 1/3x" =
      some ⟨"生成题目解析", 1, 3, "AI 解析题目中... 1/3"⟩
    ∧ claimExtract true "题目处理 1/3x" = none := by
  exact ⟨by decide, by decide⟩

/-- C5, amended: per-line extraction behaves exactly as the claim describes
with the word-boundary requirement dropped: the marker followed by
whitespace and `<done>/<total>` (maximal digit runs, no trailing boundary
required) yields the corresponding update, with the question pattern checked
first, then the knowledge-point pattern, then the two-marker stage line, and
every other line yields no update. -/
theorem c5_extraction (line : String) :
    extractProgress line = claimExtract false line := by
  simp only [extractProgress, claimExtract, reSearchNums_eq_searchNumsIdx]

/-- C9, counterexample: identifiers are the first eight characters of the
UUID string, so two distinct UUIDs sharing a 32-bit prefix yield the same
job identifier, and the second submission's initial record overwrites the
first job's record (`mkdir(exist_ok=True)` masks the collision). -/
theorem c9_counterexample :
    ("aaaaaaaa-1111-4111-8111-111111111111" : String) ≠
      "aaaaaaaa-2222-4222-8222-222222222222"
    ∧ taskIdOfUuid "aaaaaaaa-1111-4111-8111-111111111111" =
        taskIdOfUuid "aaaaaaaa-2222-4222-8222-222222222222"
    ∧ createInitial
        (createInitial emptyStore
          (taskIdOfUuid "aaaaaaaa-1111-4111-8111-111111111111")
          [("url", .jstr "http://a")])
        (taskIdOfUuid "aaaaaaaa-2222-4222-8222-222222222222")
        [("url", .jstr "http://b")]
        (taskIdOfUuid "aaaaaaaa-1111-4111-8111-111111111111") =
      some [("url", .jstr "http://b")] := by
  exact ⟨by decide, by decide, rfl⟩

/-- C9, amended: identifiers are the first eight characters of a random
UUID4 string, so distinctness holds exactly when the drawn UUIDs differ
within that prefix; under that proviso each job's record lands under its own
identifier and neither submission touches the other's record. -/
theorem c9_amended (u1 u2 : String) (storeBase : String → Option InfoMap)
    (infoA infoB : InfoMap) (h : taskIdOfUuid u1 ≠ taskIdOfUuid u2) :
    (createInitial (createInitial storeBase (taskIdOfUuid u1) infoA)
        (taskIdOfUuid u2) infoB) (taskIdOfUuid u1) = some infoA
    ∧ (createInitial (createInitial storeBase (taskIdOfUuid u1) infoA)
        (taskIdOfUuid u2) infoB) (taskIdOfUuid u2) = some infoB := by
  constructor
  · simp [createInitial, h]
  · simp [createInitial]

/-- Witness for C9's amended theorem at two concrete UUID4 strings differing
in the first eight characters. -/
theorem c9_witness :
    (createInitial
        (createInitial emptyStore
          (taskIdOfUuid "11111111-aaaa-4aaa-8aaa-aaaaaaaaaaaa")
          [("url", .jstr "http://a")])
        (taskIdOfUuid "22222222-bbbb-4bbb-8bbb-bbbbbbbbbbbb")
        [("url", .jstr "http://b")])
      (taskIdOfUuid "11111111-aaaa-4aaa-8aaa-aaaaaaaaaaaa") =
        some [("url", .jstr "http://a")]
    ∧ (createInitial
        (createInitial emptyStore
          (taskIdOfUuid "11111111-aaaa-4aaa-8aaa-aaaaaaaaaaaa")
          [("url", .jstr "http://a")])
        (taskIdOfUuid "22222222-bbbb-4bbb-8bbb-bbbbbbbbbbbb")
        [("url", .jstr "http://b")])
      (taskIdOfUuid "22222222-bbbb-4bbb-8bbb-bbbbbbbbbbbb") =
        some [("url", .jstr "http://b")] :=
  c9_amended "11111111-aaaa-4aaa-8aaa-aaaaaaaaaaaa"
    "22222222-bbbb-4bbb-8bbb-bbbbbbbbbbbb" emptyStore
    [("url", .jstr "http://a")] [("url", .jstr "http://b")] (by decide)

/-- C6, confirmed: `save_info` on an existing Job Record overwrites only the
`status` field and — when the supplied diagnostic is non-empty — the `error`
field; every other key of the record keeps its value verbatim, and an empty
diagnostic leaves even a pre-existing `error` value untouched. -/
theorem c6_update_preserves_fields (m : InfoMap)
    (taskId url createdAt status error k : String)
    (hk1 : k ≠ "status") (hk2 : k ≠ "error") :
    lookupKey (saveInfoData (some m) taskId url createdAt status error) k =
      lookupKey m k
    ∧ lookupKey (saveInfoData (some m) taskId url createdAt status error)
        "status" = some (.jstr status)
    ∧ (error ≠ "" →
        lookupKey (saveInfoData (some m) taskId url createdAt status error)
          "error" = some (.jstr error))
    ∧ (error = "" →
        lookupKey (saveInfoData (some m) taskId url createdAt status error)
          "error" = lookupKey m "error") := by
  refine ⟨?_, saveInfoData_status _ _ _ _ _ _, ?_, ?_⟩
  · simpa using saveInfoData_other (some m) taskId url createdAt status error k hk1 hk2
  · intro he
    rw [saveInfoData_error]
    simp [he]
  · intro he
    rw [saveInfoData_error]
    simp [he]

/-- Witness for C6 at a concrete record carrying a caller-supplied title:
a failing status update keeps the title, sets the status and the
diagnostic. -/
theorem c6_witness :
    lookupKey (saveInfoData
        (some [("id", .jstr "t1"), ("title", .jstr "样卷"),
               ("status", .jstr "building")]) "t1" "u" "ts" "failed" "boom")
      "title" = some (.jstr "样卷")
    ∧ lookupKey (saveInfoData
        (some [("id", .jstr "t1"), ("title", .jstr "样卷"),
               ("status", .jstr "building")]) "t1" "u" "ts" "failed" "boom")
      "status" = some (.jstr "failed")
    ∧ lookupKey (saveInfoData
        (some [("id", .jstr "t1"), ("title", .jstr "样卷"),
               ("status", .jstr "building")]) "t1" "u" "ts" "failed" "boom")
      "error" = some (.jstr "boom") := by
  have h := c6_update_preserves_fields
    [("id", .jstr "t1"), ("title", .jstr "样卷"), ("status", .jstr "building")]
    "t1" "u" "ts" "failed" "boom" "title" (by decide) (by decide)
  exact ⟨h.1.trans rfl, h.2.1, h.2.2.1 (by decide)⟩

theorem percentOk_none : percentOk none := fun _ hp => nomatch hp

theorem percentOk_mk (st : String) (c t : Nat) (m : String) :
    percentOk (some (mkProgress st c t m)) := by
  intro p hp
  cases hp
  rfl

theorem doSaveInfo_ok_progress {oc : WriteOracle} {a b c d e : String}
    {s s' : RunState} (h : doSaveInfo oc a b c d e s = .ok s') :
    s'.progress = s.progress := by
  unfold doSaveInfo at h
  by_cases hw : oc s.nextWrite = true
  · simp [hw] at h
    rw [← h]
  · simp [hw] at h

theorem doSaveInfo_error_progress {oc : WriteOracle} {a b c d e : String}
    {s s' : RunState} {ex : PyExc}
    (h : doSaveInfo oc a b c d e s = .error (ex, s')) :
    s'.progress = s.progress := by
  unfold doSaveInfo at h
  by_cases hw : oc s.nextWrite = true
  · simp [hw] at h
  · simp [hw] at h
    rw [← h.2]

theorem doSaveProgress_ok_progress {oc : WriteOracle} {stage : String}
    {cur tot : Nat} {msg : String} {s s' : RunState}
    (h : doSaveProgress oc stage cur tot msg s = .ok s') :
    s'.progress = some (mkProgress stage cur tot msg) := by
  unfold doSaveProgress at h
  by_cases hw : oc s.nextWrite = true
  · simp [hw] at h
    rw [← h]
  · simp [hw] at h

theorem doSaveProgress_error_progress {oc : WriteOracle} {stage : String}
    {cur tot : Nat} {msg : String} {s s' : RunState} {ex : PyExc}
    (h : doSaveProgress oc stage cur tot msg s = .error (ex, s')) :
    s'.progress = s.progress := by
  unfold doSaveProgress at h
  by_cases hw : oc s.nextWrite = true
  · simp [hw] at h
  · simp [hw] at h
    rw [← h.2]

theorem processLines_percentOk (oc : WriteOracle) :
    ∀ (ls : List String) (s : RunState), percentOk s.progress →
      (∀ s', processLines oc ls s = .ok s' → percentOk s'.progress) ∧
      (∀ ex s', processLines oc ls s = .error (ex, s') → percentOk s'.progress)
  | [], s, hs => by
    constructor
    · intro s' h
      simp only [processLines] at h
      cases h
      exact hs
    · intro ex s' h
      simp only [processLines] at h
      exact (Except.noConfusion h)
  | l :: ls, s, hs => by
    cases hu : extractProgress l with
    | none =>
      have ih := processLines_percentOk oc ls s hs
      constructor
      · intro s' h
        simp only [processLines, hu] at h
        exact ih.1 s' h
      · intro ex s' h
        simp only [processLines, hu] at h
        exact ih.2 ex s' h
    | some u =>
      cases hd : doSaveProgress oc u.stage u.current u.total u.message s with
      | ok s1 =>
        have h1 := doSaveProgress_ok_progress hd
        have ih := processLines_percentOk oc ls s1
          (h1 ▸ percentOk_mk u.stage u.current u.total u.message)
        constructor
        · intro s' h
          simp only [processLines, hu, hd] at h
          exact ih.1 s' h
        · intro ex s' h
          simp only [processLines, hu, hd] at h
          exact ih.2 ex s' h
      | error e =>
        obtain ⟨ex0, s0⟩ := e
        have h1 := doSaveProgress_error_progress hd
        constructor
        · intro s' h
          simp only [processLines, hu, hd] at h
          exact (Except.noConfusion h)
        · intro ex s' h
          simp only [processLines, hu, hd] at h
          obtain ⟨h2, h3⟩ := Prod.mk.injEq .. ▸ (Except.error.inj h)
          rw [← h3, h1]
          exact hs

theorem processLines_stateOf_percentOk (oc : WriteOracle) (ls : List String)
    (s : RunState) (hs : percentOk s.progress) :
    percentOk (stateOf (processLines oc ls s)).progress := by
  have h := processLines_percentOk oc ls s hs
  cases hp : processLines oc ls s with
  | ok s' => simpa [stateOf] using h.1 s' hp
  | error e =>
    obtain ⟨ex, s'⟩ := e
    simpa [stateOf] using h.2 ex s' hp

theorem tryBody_stateOf_percentOk (oc : WriteOracle) (a b c : String)
    (beh : ProcBehavior) (s : RunState) (hs : percentOk s.progress) :
    percentOk (stateOf (tryBody oc a b c beh s)).progress := by
  cases beh with
  | startError msg => simpa [tryBody, stateOf] using hs
  | run lines outcome =>
    cases hp : processLines oc lines s with
    | error e =>
      obtain ⟨ex0, s0⟩ := e
      have h0 : percentOk s0.progress :=
        (processLines_percentOk oc lines s hs).2 ex0 s0 hp
      simp only [tryBody, hp, stateOf]
      exact h0
    | ok s1 =>
      have h1 : percentOk s1.progress :=
        (processLines_percentOk oc lines s hs).1 s1 hp
      cases outcome with
      | readErr msg => simpa [tryBody, hp, stateOf] using h1
      | timeout => simpa [tryBody, hp, stateOf] using h1
      | exited code stderr =>
        by_cases hc : code = 0
        · simp only [tryBody, hp, hc, ite_true, eq_self_iff_true, if_true]
          cases hdi : doSaveInfo oc a b c "completed" ""
              (addStep .completedStep s1) with
          | error e =>
            obtain ⟨ex0, s0⟩ := e
            simp only [hdi, stateOf]
            rw [doSaveInfo_error_progress hdi]
            exact h1
          | ok s3 =>
            simp only [hdi]
            cases hdp : doSaveProgress oc "完成" 1 1 "生成完成！" s3 with
            | ok s4 =>
              simp only [hdp, stateOf]
              rw [doSaveProgress_ok_progress hdp]
              exact percentOk_mk _ _ _ _
            | error e =>
              obtain ⟨ex0, s0⟩ := e
              simp only [hdp, stateOf]
              rw [doSaveProgress_error_progress hdp, doSaveInfo_ok_progress hdi]
              exact h1
        · simp only [tryBody, hp, hc, ite_false, if_neg, if_false]
          cases hdi : doSaveInfo oc a b c "failed" (lastN 500 stderr)
              (addStep .failedExitStep s1) with
          | error e =>
            obtain ⟨ex0, s0⟩ := e
            simp only [hdi, stateOf]
            rw [doSaveInfo_error_progress hdi]
            exact h1
          | ok s3 =>
            simp only [hdi]
            cases hdp : doSaveProgress oc "失败" 0 1 "生成失败" s3 with
            | ok s4 =>
              simp only [hdp, stateOf]
              rw [doSaveProgress_ok_progress hdp]
              exact percentOk_mk _ _ _ _
            | error e =>
              obtain ⟨ex0, s0⟩ := e
              simp only [hdp, stateOf]
              rw [doSaveProgress_error_progress hdp, doSaveInfo_ok_progress hdi]
              exact h1

theorem handlerSeq_percentOk (oc : WriteOracle) (a b c errMsg progMsg : String)
    (s : RunState) (hs : percentOk s.progress) :
    percentOk (handlerSeq oc a b c errMsg progMsg s).final.progress := by
  unfold handlerSeq
  cases hdi : doSaveInfo oc a b c "failed" errMsg s with
  | error e =>
    obtain ⟨ex0, s0⟩ := e
    simp only [hdi]
    rw [doSaveInfo_error_progress hdi]
    exact hs
  | ok s1 =>
    simp only [hdi]
    cases hdp : doSaveProgress oc "失败" 0 1 progMsg s1 with
    | error e =>
      obtain ⟨ex0, s0⟩ := e
      simp only [hdp]
      rw [doSaveProgress_error_progress hdp, doSaveInfo_ok_progress hdi]
      exact hs
    | ok s2 =>
      simp only [hdp]
      rw [doSaveProgress_ok_progress hdp]
      exact percentOk_mk _ _ _ _

/-- C7, confirmed: every Progress Record held by the store after any run of
the supervisor — any build behaviour, any pattern of write failures — has
`percent = ⌊current*100/total⌋` when `total > 0` and `percent = 0` when
`total = 0`; every write recomputes it from that write's own `current` and
`total` (`save_progress` consults no previous record). -/
theorem c7_percent_invariant (oc : WriteOracle) (taskId url createdAt : String)
    (b : ProcBehavior) (initInfo : Option InfoMap) (p : ProgressRec)
    (hp : (runTask oc taskId url createdAt b initInfo).final.progress = some p) :
    p.percent = if 0 < p.total then p.current * 100 / p.total else 0 := by
  suffices h :
      percentOk (runTask oc taskId url createdAt b initInfo).final.progress from
    h p hp
  unfold runTask
  cases hdi : doSaveInfo oc taskId url createdAt "building" ""
      ⟨initInfo, none, 0, [], []⟩ with
  | error e =>
    obtain ⟨ex0, s0⟩ := e
    simp only [hdi]
    rw [doSaveInfo_error_progress hdi]
    exact percentOk_none
  | ok s1 =>
    simp only [hdi]
    have h1 : percentOk s1.progress := by
      rw [doSaveInfo_ok_progress hdi]
      exact percentOk_none
    cases hdp : doSaveProgress oc "初始化" 0 100 "正在启动..." s1 with
    | error e =>
      obtain ⟨ex0, s0⟩ := e
      simp only [hdp]
      rw [doSaveProgress_error_progress hdp]
      exact h1
    | ok s2 =>
      simp only [hdp]
      have h2 : percentOk s2.progress := by
        rw [doSaveProgress_ok_progress hdp]
        exact percentOk_mk _ _ _ _
      have ht0 := tryBody_stateOf_percentOk oc taskId url createdAt b s2 h2
      cases ht : tryBody oc taskId url createdAt b s2 with
      | ok s3 =>
        rw [ht] at ht0
        simp only [ht]
        simpa [stateOf] using ht0
      | error e =>
        obtain ⟨ex, s3⟩ := e
        rw [ht] at ht0
        have h3 : percentOk s3.progress := by simpa [stateOf] using ht0
        cases ex with
        | timeoutExpired =>
          simp only [ht]
          exact handlerSeq_percentOk oc taskId url createdAt
            "处理超时（30分钟）" "处理超时" (addStep .failedTimeoutStep s3) h3
        | otherExc msg =>
          simp only [ht]
          exact handlerSeq_percentOk oc taskId url createdAt msg msg
            (addStep .failedErrorStep s3) h3

/-- Witness for C7 at a concrete completed run: the final record
`(完成, 1, 1)` carries `percent = 100 = ⌊1*100/1⌋`. -/
theorem c7_witness :
    (mkProgress "完成" 1 1 "生成完成！").percent =
      if 0 < (mkProgress "完成" 1 1 "生成完成！").total then
        (mkProgress "完成" 1 1 "生成完成！").current * 100 /
          (mkProgress "完成" 1 1 "生成完成！").total
      else 0 :=
  c7_percent_invariant allWrites "t1" "u" "ts" (.run [] (.exited 0 "")) none
    (mkProgress "完成" 1 1 "生成完成！") rfl

theorem doSaveInfo_allWrites {oc : WriteOracle} (hoc : ∀ n, oc n = true)
    (a b c d e : String) (s : RunState) :
    doSaveInfo oc a b c d e s =
      .ok { s with
            info := some (saveInfoData s.info a b c d e)
            nextWrite := s.nextWrite + 1
            statusWrites := s.statusWrites ++ [d] } := by
  simp [doSaveInfo, hoc]

theorem doSaveProgress_allWrites {oc : WriteOracle} (hoc : ∀ n, oc n = true)
    (stage : String) (cur tot : Nat) (msg : String) (s : RunState) :
    doSaveProgress oc stage cur tot msg s =
      .ok { s with
            progress := some (mkProgress stage cur tot msg)
            nextWrite := s.nextWrite + 1 } := by
  simp [doSaveProgress, hoc]

theorem processLines_allWrites {oc : WriteOracle} (hoc : ∀ n, oc n = true) :
    ∀ (ls : List String) (s : RunState),
      ∃ s', processLines oc ls s = .ok s' ∧ s'.info = s.info ∧
        s'.statusWrites = s.statusWrites ∧ s'.termSteps = s.termSteps
  | [], s => ⟨s, rfl, rfl, rfl, rfl⟩
  | l :: ls, s => by
    cases hu : extractProgress l with
    | none =>
      obtain ⟨s', h1, h2, h3, h4⟩ := processLines_allWrites hoc ls s
      refine ⟨s', ?_, h2, h3, h4⟩
      simp only [processLines, hu]
      exact h1
    | some u =>
      obtain ⟨s', h1, h2, h3, h4⟩ := processLines_allWrites hoc ls
        { s with
          progress := some (mkProgress u.stage u.current u.total u.message)
          nextWrite := s.nextWrite + 1 }
      refine ⟨s', ?_, h2, h3, h4⟩
      simp only [processLines, hu, doSaveProgress_allWrites hoc]
      exact h1

/-- C1, counterexample: with a store write failing at an inopportune moment,
two terminal steps execute in one run and the status leaves `completed`.
The build exits 0; `save_info('completed')` (write 2) succeeds, then
`save_progress('完成', ...)` (write 3) raises, `except Exception` runs and
overwrites the status to `failed`.  The status path is
`building → completed → failed` and both the completed step and the
unexpected-error step execute. -/
theorem c1_counterexample :
    (runTask (failAt 3) "t1" "u" "ts" (.run [] (.exited 0 "")) none).final.statusWrites
        = ["building", "completed", "failed"]
    ∧ (runTask (failAt 3) "t1" "u" "ts" (.run [] (.exited 0 "")) none).final.termSteps
        = [.completedStep, .failedErrorStep]
    ∧ ((runTask (failAt 3) "t1" "u" "ts" (.run [] (.exited 0 "")) none).final.termSteps.length = 1
        → False)
    ∧ infoField (runTask (failAt 3) "t1" "u" "ts" (.run [] (.exited 0 "")) none)
        "status" = some (.jstr "failed") := by
  refine ⟨by decide, by decide, by decide, rfl⟩

/-- C1, amended: provided every store write succeeds, each run of the
supervisor writes the status path `building` followed by exactly one
terminal status (`completed` or `failed`), never revisits `building`,
executes exactly one of the four terminal steps, and lets no exception
escape; a store write failure after the completed status is recorded makes
the unexpected-error backstop run as well and overwrite `completed` with
`failed`. -/
theorem c1_amended (oc : WriteOracle) (taskId url createdAt : String)
    (b : ProcBehavior) (initInfo : Option InfoMap) (hoc : ∀ n, oc n = true) :
    ∃ t, (runTask oc taskId url createdAt b initInfo).final.statusWrites =
          ["building", t]
      ∧ (t = "completed" ∨ t = "failed")
      ∧ (runTask oc taskId url createdAt b initInfo).final.termSteps.length = 1
      ∧ (runTask oc taskId url createdAt b initInfo).escaped = false := by
  cases b with
  | startError msg =>
    refine ⟨"failed", ?_, Or.inr rfl, ?_, ?_⟩ <;>
      simp [runTask, tryBody, handlerSeq, addStep, doSaveInfo, doSaveProgress, hoc]
  | run lines outcome =>
    obtain ⟨s', h1, h2, h3, h4⟩ := processLines_allWrites hoc lines
      ⟨some (saveInfoData initInfo taskId url createdAt "building" ""),
       some (mkProgress "初始化" 0 100 "正在启动..."), 2, ["building"], []⟩
    cases outcome with
    | readErr msg =>
      refine ⟨"failed", ?_, Or.inr rfl, ?_, ?_⟩ <;>
        simp [runTask, tryBody, handlerSeq, addStep, doSaveInfo, doSaveProgress,
          hoc, h1, h3, h4]
    | timeout =>
      refine ⟨"failed", ?_, Or.inr rfl, ?_, ?_⟩ <;>
        simp [runTask, tryBody, handlerSeq, addStep, doSaveInfo, doSaveProgress,
          hoc, h1, h3, h4]
    | exited code stderr =>
      by_cases hc : code = 0
      · refine ⟨"completed", ?_, Or.inl rfl, ?_, ?_⟩ <;>
          simp [runTask, tryBody, addStep, doSaveInfo, doSaveProgress,
            hoc, h1, hc, h3, h4]
      · refine ⟨"failed", ?_, Or.inr rfl, ?_, ?_⟩ <;>
          simp [runTask, tryBody, addStep, doSaveInfo, doSaveProgress,
            hoc, h1, hc, h3, h4]

/-- Witness for C1's amended theorem on a concrete successful run with one
recognized progress line and no write failures. -/
theorem c1_witness :
    ∃ t, (runTask allWrites "t1" "u" "ts"
            (.run ["题目处理 2/5"] (.exited 0 "")) none).final.statusWrites =
          ["building", t]
      ∧ (t = "completed" ∨ t = "failed")
      ∧ (runTask allWrites "t1" "u" "ts"
            (.run ["题目处理 2/5"] (.exited 0 "")) none).final.termSteps.length = 1
      ∧ (runTask allWrites "t1" "u" "ts"
            (.run ["题目处理 2/5"] (.exited 0 "")) none).escaped = false :=
  c1_amended allWrites "t1" "u" "ts" (.run ["题目处理 2/5"] (.exited 0 "")) none
    (fun _ => rfl)

/-- C4, counterexample: on nonzero exit with empty standard error the
record's `error` field is absent, not the claimed empty string:
`save_info('failed', stderr[-500:])` skips the assignment because
`if error:` is false on `''`. -/
theorem c4_counterexample :
    infoField (runTask allWrites "t1" "u" "ts" (.run [] (.exited 1 "")) none)
        "error" = none
    ∧ lastN 500 "" = ""
    ∧ infoField (runTask allWrites "t1" "u" "ts" (.run [] (.exited 1 "")) none)
        "status" = some (.jstr "failed")
    ∧ (infoField (runTask allWrites "t1" "u" "ts" (.run [] (.exited 1 "")) none)
        "error" = some (.jstr (lastN 500 "")) → False) := by
  refine ⟨rfl, rfl, rfl, ?_⟩
  intro h
  exact Option.noConfusion
    (show (none : Option JVal) = some (.jstr (lastN 500 "")) from h)

/-- C4, amended: with all store writes succeeding and no pre-existing error
field, exit code 0 records status `completed` and the final Progress Record
`(完成, 1, 1)`; a nonzero exit records status `failed`, a Progress Record
`(失败, 0, 1)`, and an `error` field equal to the last 500 characters of
standard error whenever that tail is non-empty (the field is left unset when
standard error is empty). -/
theorem c4_amended (oc : WriteOracle) (taskId url createdAt : String)
    (lines : List String) (code : Int) (stderr : String)
    (initInfo : Option InfoMap) (hoc : ∀ n, oc n = true)
    (herr : lookupKey (initInfo.getD [("id", .jstr taskId), ("url", .jstr url),
      ("created_at", .jstr createdAt)]) "error" = none) :
    (code = 0 →
      infoField (runTask oc taskId url createdAt
          (.run lines (.exited code stderr)) initInfo) "status" =
        some (.jstr "completed")
      ∧ (runTask oc taskId url createdAt
          (.run lines (.exited code stderr)) initInfo).final.progress =
        some (mkProgress "完成" 1 1 "生成完成！"))
    ∧ (code ≠ 0 →
      infoField (runTask oc taskId url createdAt
          (.run lines (.exited code stderr)) initInfo) "status" =
        some (.jstr "failed")
      ∧ infoField (runTask oc taskId url createdAt
          (.run lines (.exited code stderr)) initInfo) "error" =
        (if lastN 500 stderr = "" then none
         else some (.jstr (lastN 500 stderr)))
      ∧ (runTask oc taskId url createdAt
          (.run lines (.exited code stderr)) initInfo).final.progress =
        some (mkProgress "失败" 0 1 "生成失败")) := by
  obtain ⟨s', h1, h2, h3, h4⟩ := processLines_allWrites hoc lines
    ⟨some (saveInfoData initInfo taskId url createdAt "building" ""),
     some (mkProgress "初始化" 0 100 "正在启动..."), 2, ["building"], []⟩
  have hs'info : s'.info =
      some (saveInfoData initInfo taskId url createdAt "building" "") := h2
  constructor
  · intro hc
    constructor
    · have hfin : (runTask oc taskId url createdAt
          (.run lines (.exited code stderr)) initInfo).final.info =
          some (saveInfoData s'.info taskId url createdAt "completed" "") := by
        simp [runTask, tryBody, addStep, doSaveInfo, doSaveProgress, hoc, h1, hc]
      simp [infoField, hfin, saveInfoData_status]
    · simp [runTask, tryBody, addStep, doSaveInfo, doSaveProgress, hoc, h1, hc]
  · intro hc
    have hfin : (runTask oc taskId url createdAt
        (.run lines (.exited code stderr)) initInfo).final.info =
        some (saveInfoData s'.info taskId url createdAt "failed"
          (lastN 500 stderr)) := by
      simp [runTask, tryBody, addStep, doSaveInfo, doSaveProgress, hoc, h1, hc]
    refine ⟨?_, ?_, ?_⟩
    · simp [infoField, hfin, saveInfoData_status]
    · simp only [infoField, hfin]
      rw [saveInfoData_error]
      by_cases ht : lastN 500 stderr = ""
      · simp only [ht, if_pos, ite_true, eq_self_iff_true]
        rw [hs'info]
        simp only [Option.getD_some]
        rw [saveInfoData_error]
        simpa using herr
      · simp [ht]
    · simp [runTask, tryBody, addStep, doSaveInfo, doSaveProgress, hoc, h1, hc]

/-- Witness for C4's amended theorem at a concrete nonzero exit with
non-empty standard error. -/
theorem c4_witness :
    infoField (runTask allWrites "t1" "u" "ts" (.run [] (.exited 1 "boom")) none)
        "status" = some (.jstr "failed")
    ∧ infoField (runTask allWrites "t1" "u" "ts"
        (.run [] (.exited 1 "boom")) none) "error" =
      (if lastN 500 "boom" = "" then none
       else some (.jstr (lastN 500 "boom")))
    ∧ (runTask allWrites "t1" "u" "ts"
        (.run [] (.exited 1 "boom")) none).final.progress =
      some (mkProgress "失败" 0 1 "生成失败") :=
  (c4_amended allWrites "t1" "u" "ts" [] 1 "boom" none (fun _ => rfl) rfl).2
    (by decide)

theorem finishResp_lookup_ne (m : InfoMap) (quiz : FileView JVal)
    (files : List String) (k : String) (h1 : k ≠ "title") (h2 : k ≠ "files") :
    lookupKey (finishResp m quiz files) k = lookupKey m k := by
  cases quiz with
  | complete q =>
    cases hq : extractPaperName q with
    | some v =>
      simp only [finishResp, hq]
      rw [lookupKey_setKey_ne _ _ _ _ h2, lookupKey_setKey_ne _ _ _ _ h1]
    | none =>
      simp only [finishResp, hq]
      rw [lookupKey_setKey_ne _ _ _ _ h2]
  | absent =>
    simp only [finishResp]
    rw [lookupKey_setKey_ne _ _ _ _ h2]
  | torn =>
    simp only [finishResp]
    rw [lookupKey_setKey_ne _ _ _ _ h2]

theorem finishResp_title_complete (m : InfoMap) (q : JVal)
    (files : List String) :
    lookupKey (finishResp m (.complete q) files) "title" =
      (match extractPaperName q with
       | some v => some v
       | none => lookupKey m "title") := by
  cases hq : extractPaperName q with
  | some v =>
    simp only [finishResp, hq]
    rw [lookupKey_setKey_ne _ _ _ _ (by decide : ("title" : String) ≠ "files")]
    exact lookupKey_setKey_self _ _ _
  | none =>
    simp only [finishResp, hq]
    exact lookupKey_setKey_ne _ _ _ _ (by decide : ("title" : String) ≠ "files")

theorem finishResp_title_other (m : InfoMap) (files : List String)
    (quiz : FileView JVal) (h : quiz = .absent ∨ quiz = .torn) :
    lookupKey (finishResp m quiz files) "title" = lookupKey m "title" := by
  rcases h with rfl | rfl <;>
    (simp only [finishResp]
     exact lookupKey_setKey_ne _ _ _ _ (by decide : ("title" : String) ≠ "files"))

theorem listTasks_ok :
    ∀ (entries : List (FileView InfoMap)),
      (∀ e ∈ entries, e ≠ .torn) → exceptOk (listTasks entries) = true
  | [], _ => rfl
  | .absent :: rest, h =>
    listTasks_ok rest (fun e he => h e (List.mem_cons_of_mem _ he))
  | .torn :: _, h => absurd rfl (h .torn (List.mem_cons_self _ _))
  | .complete m :: rest, h => by
    have ih := listTasks_ok rest (fun e he => h e (List.mem_cons_of_mem _ he))
    cases hr : listTasks rest with
    | ok ms => simp [listTasks, hr, exceptOk]
    | error e =>
      rw [hr] at ih
      simp [exceptOk] at ih

/-- C8, counterexample: a reader that observes `info.json` in the torn
(truncated) state an in-place `Path.write_text` exposes between its
truncating open and its write receives an unhandled `json.loads` exception
from `get_task` — and one torn record makes `list_tasks` raise for every
caller.  The torn state is reachable: it is the second reader-visible state
during `save_info`'s write. -/
theorem c8_counterexample :
    getTask .torn .absent .absent [] = .error "JSONDecodeError"
    ∧ (infoViewTrace (infoPathOf "t1") (.complete mInit)
        (saveInfoOps "t1" (some mInit) "u" "ts" "building" "")).get? 1 =
      some .torn
    ∧ listTasks [.complete mInit, .torn] = .error "JSONDecodeError" := by
  exact ⟨rfl, rfl, rfl⟩

/-- C8, amended: provided no record is observed mid-write (no torn
`info.json` anywhere and no torn `progress.json`), the status-query
operations always return: get-job yields NotFound exactly when no Job Record
exists, a missing Progress Record merely leaves the response without a
progress field, and list-jobs succeeds; a reader that does catch a record
mid-write receives an unhandled JSON parse error. -/
theorem c8_amended (info : FileView InfoMap) (progress : FileView ProgressRec)
    (quiz : FileView JVal) (files : List String)
    (entries : List (FileView InfoMap))
    (hinfo : info ≠ .torn) (hprog : progress ≠ .torn)
    (hent : ∀ e ∈ entries, e ≠ .torn) :
    exceptOk (getTask info progress quiz files) = true
    ∧ (getTask info progress quiz files = .ok .notFound ↔ info = .absent)
    ∧ (∀ m, info = .complete m → progress = .absent →
        ∃ resp, getTask info progress quiz files = .ok (.found resp)
          ∧ lookupKey resp "progress" = lookupKey m "progress")
    ∧ exceptOk (listTasks entries) = true := by
  refine ⟨?_, ?_, ?_, listTasks_ok entries hent⟩
  · cases info with
    | absent => rfl
    | torn => exact absurd rfl hinfo
    | complete m =>
      cases progress with
      | torn => exact absurd rfl hprog
      | absent => rfl
      | complete p => rfl
  · cases info with
    | absent => simp [getTask]
    | torn => exact absurd rfl hinfo
    | complete m =>
      cases progress with
      | torn => exact absurd rfl hprog
      | absent =>
        exact iff_of_false (fun h => GetResult.noConfusion (Except.ok.inj h))
          (fun h => FileView.noConfusion h)
      | complete p =>
        exact iff_of_false (fun h => GetResult.noConfusion (Except.ok.inj h))
          (fun h => FileView.noConfusion h)
  · intro m hm hpabs
    subst hm
    subst hpabs
    refine ⟨finishResp m quiz files, rfl, ?_⟩
    exact finishResp_lookup_ne m quiz files "progress"
      (by decide) (by decide)

/-- Witness for C8's amended theorem at a concrete store: one complete
record, no progress yet, one extra job directory without a record. -/
theorem c8_witness :
    exceptOk (getTask (.complete mInit) .absent .absent []) = true
    ∧ exceptOk (listTasks [.complete mInit, .absent]) = true := by
  have h := c8_amended (.complete mInit) .absent .absent []
    [.complete mInit, .absent]
    (fun hh => FileView.noConfusion hh) (fun hh => FileView.noConfusion hh)
    (by
      intro e he
      rcases List.mem_cons.mp he with rfl | he2
      · exact fun hh => FileView.noConfusion hh
      · rcases List.mem_cons.mp he2 with rfl | he3
        · exact fun hh => FileView.noConfusion hh
        · exact absurd he3 (List.not_mem_nil e))
  exact ⟨h.1, h.2.2.2⟩

/-- C10, counterexample: `quiz_data.json` parses to `{"meta": 7}` — a
readable file whose `meta.paper_name` key is absent — yet the response keeps
the stored title `旧标题` instead of the claimed empty string, because
`.get('paper_name', '')` on the non-dict `meta` raises `AttributeError`,
which the bare `except` swallows. -/
theorem c10_counterexample :
    getTask (.complete mStored) .absent
        (.complete (.jobj [("meta", .jnum 7)])) [] =
      .ok (.found (setKey mStored "files" (.jarr [])))
    ∧ lookupKey (setKey mStored "files" (.jarr [])) "title" =
      some (.jstr "旧标题")
    ∧ (lookupKey (setKey mStored "files" (.jarr [])) "title" =
        some (.jstr "") → False) := by
  refine ⟨rfl, rfl, ?_⟩
  intro h
  have h2 := Option.some.inj
    (show some (JVal.jstr "旧标题") = some (.jstr "") from h)
  exact absurd (JVal.jstr.inj h2) (by decide)

/-- C10, amended: when `quiz_data.json` parses and the
`meta.paper_name` lookup succeeds — top level a JSON object whose `meta`
value, if present, is an object — the response title is replaced by
`meta.paper_name` (empty string when the key is absent); when the file is
missing, unparseable, or the lookup raises (non-object top level or
non-object `meta`), the stored title is returned.  `get_task` performs no
writes, so the stored record is unchanged (it is modelled as a pure
read). -/
theorem c10_amended (m : InfoMap) (p : FileView ProgressRec) (q : JVal)
    (files : List String) (hp : p ≠ .torn) :
    (∃ resp, getTask (.complete m) p (.complete q) files = .ok (.found resp)
      ∧ lookupKey resp "title" =
          (match extractPaperName q with
           | some v => some v
           | none => lookupKey m "title"))
    ∧ (∀ fields, q = .jobj fields → lookupKey fields "meta" = none →
        extractPaperName q = some (.jstr ""))
    ∧ (∀ fields metaFields, q = .jobj fields →
        lookupKey fields "meta" = some (.jobj metaFields) →
        extractPaperName q =
          some ((lookupKey metaFields "paper_name").getD (.jstr "")))
    ∧ (∀ qv : FileView JVal, qv = .absent ∨ qv = .torn →
        ∃ resp, getTask (.complete m) p qv files = .ok (.found resp)
          ∧ lookupKey resp "title" = lookupKey m "title") := by
  refine ⟨?_, ?_, ?_, ?_⟩
  · cases p with
    | torn => exact absurd rfl hp
    | absent =>
      exact ⟨finishResp m (.complete q) files, rfl,
        finishResp_title_complete m q files⟩
    | complete pr =>
      refine ⟨finishResp (setKey m "progress" (progressJson pr))
        (.complete q) files, rfl, ?_⟩
      rw [finishResp_title_complete]
      cases hq : extractPaperName q with
      | some v => rfl
      | none =>
        exact lookupKey_setKey_ne _ _ _ _
          (by decide : ("title" : String) ≠ "progress")
  · intro fields hq hm
    subst hq
    simp [extractPaperName, hm]
  · intro fields metaFields hq hm
    subst hq
    simp [extractPaperName, hm]
  · intro qv hqv
    cases p with
    | torn => exact absurd rfl hp
    | absent =>
      exact ⟨finishResp m qv files, rfl, finishResp_title_other m files qv hqv⟩
    | complete pr =>
      refine ⟨finishResp (setKey m "progress" (progressJson pr)) qv files,
        rfl, ?_⟩
      rw [finishResp_title_other _ _ _ hqv]
      exact lookupKey_setKey_ne _ _ _ _
        (by decide : ("title" : String) ≠ "progress")

/-- Witness for C10's amended theorem at a parsed quiz file carrying
`meta.paper_name = 新标题`. -/
theorem c10_witness :
    ∃ resp, getTask (.complete mStored) .absent
        (.complete (.jobj [("meta", .jobj [("paper_name", .jstr "新标题")])]))
        [] = .ok (.found resp)
      ∧ lookupKey resp "title" =
          (match extractPaperName
              (.jobj [("meta", .jobj [("paper_name", .jstr "新标题")])]) with
           | some v => some v
           | none => lookupKey mStored "title") :=
  (c10_amended mStored .absent
    (.jobj [("meta", .jobj [("paper_name", .jstr "新标题")])]) []
    (fun hh => FileView.noConfusion hh)).1

